import Mathlib

/-!
Verification of the `lib-go` service-bootstrap library: a shallow embedding of
its health-check handler, health aggregation cycle, credential loading and
per-call gRPC wrapper, with theorems settling the specified properties.
-/

namespace LibGo

/-- Serving status values of the gRPC health protocol
(`HealthCheckResponse_UNKNOWN` / `_SERVING` / `_NOT_SERVING`). -/
inductive ServingStatus where
  | UNKNOWN
  | SERVING
  | NOT_SERVING
  deriving DecidableEq, Repr

/-- The health registry kept by the gRPC health server: an association list
from service name to the last status pushed for it.  `SetServingStatus`
overwrites the entry for the given service and keeps every other entry. -/
abbrev Registry := List (String × ServingStatus)

/-- Map lookup on the registry. -/
def Registry.find (r : Registry) (s : String) : Option ServingStatus :=
  match r with
  | [] => none
  | (k, v) :: rest => if k = s then some v else Registry.find rest s

/-- `healthcheck.SetServingStatus service st`: overwrite the entry for
`service`, or add one if none exists. -/
def Registry.set (r : Registry) (s : String) (st : ServingStatus) : Registry :=
  match r with
  | [] => [(s, st)]
  | (k, v) :: rest => if k = s then (k, st) :: rest else (k, v) :: Registry.set rest s st

/-- Request message of the health-check endpoint: carries an optional service
name (empty string = absent). -/
structure HealthCheckRequest where
  service : String
  deriving DecidableEq, Repr

/-- Response message of the health-check endpoint. -/
structure HealthCheckResponse where
  status : ServingStatus
  deriving DecidableEq, Repr

/-- RPC-level errors, modelled by their message. -/
abbrev RPCError := String

/-- `HealthHandler` (src/unnamed/part_000): holds a map from service name to
its `ServiceCheck`.  A `ServiceCheck` is a nullary boolean function
(`func() bool`); it is modelled by the boolean it returns when called. -/
structure HealthHandler where
  services : List (String × Bool)

/-- Map lookup for `h.services[in.Service]`. -/
def lookupService : List (String × Bool) → String → Option Bool
  | [], _ => none
  | (k, v) :: rest, s => if k = s then some v else lookupService rest s

/-- `HealthHandler.Check` (src/unnamed/part_000, lines 19-43).  The Go method
returns a `(*HealthCheckResponse, error)` pair; it is modelled as
`(Option HealthCheckResponse, Option RPCError)` where `none` is Go's `nil`.
A non-empty service name is looked up in the handler's map: an unknown name
yields `UNKNOWN`, a failing check yields `NOT_SERVING`, a passing check yields
`SERVING`.  An empty service name yields `SERVING` unconditionally.  Every
branch returns a non-nil response and a nil error. -/
def HealthHandler.check (h : HealthHandler) (req : HealthCheckRequest) :
    Option HealthCheckResponse × Option RPCError :=
  if req.service ≠ "" then
    match lookupService h.services req.service with
    | none => (some ⟨.UNKNOWN⟩, none)
    | some checkFn =>
      if checkFn = false then (some ⟨.NOT_SERVING⟩, none)
      else (some ⟨.SERVING⟩, none)
  else
    (some ⟨.SERVING⟩, none)

/-- One pass of the `healthUpdater` closure returned by `StartGRPCServer`
(src/unnamed/part_001, lines 107-118): `status := depsCheck()` is the probe
result for this cycle, a map from service name to a boolean; for every
`(service, ok)` entry the cycle pushes `SERVING` when `ok` is true and
`NOT_SERVING` otherwise into the health registry via `SetServingStatus`.
Nothing else is written: no entry is removed and no global/root status is set.
The probe-result map is modelled as an association list (Go map iteration
order is arbitrary, but the final registry does not depend on it when keys
are distinct); the trailing `time.Sleep(5 * time.Second)` does not touch the
registry and is not modelled. -/
def healthUpdaterStep (status : List (String × Bool)) (registry : Registry) : Registry :=
  match status with
  | [] => registry
  | (service, ok) :: rest =>
    healthUpdaterStep rest
      (registry.set service (if ok then .SERVING else .NOT_SERVING))

/-- A Go `context.Context` as far as this code observes it: an optional
absolute deadline (in seconds; `none` = no deadline) and the outgoing gRPC
metadata, an ordered list of key/value pairs. -/
structure Context where
  deadline : Option Nat
  metadata : List (String × String)
  deriving DecidableEq, Repr

/-- `context.WithTimeout(ctx, d)` evaluated at absolute time `now`: the child
context's deadline is `now + d`, except that a parent deadline that is already
sooner is kept.  Metadata is inherited unchanged.  (The paired `cancel`
function releases runtime resources and is not part of the embedding.) -/
def contextWithTimeout (ctx : Context) (now d : Nat) : Context :=
  { deadline :=
      some (match ctx.deadline with
            | none => now + d
            | some pd => min pd (now + d)),
    metadata := ctx.metadata }

/-- `grpcMetadata.AppendToOutgoingContext(ctx, k, v)`: append one key/value
pair at the end of the outgoing metadata. -/
def appendToOutgoingContext (ctx : Context) (k v : String) : Context :=
  { deadline := ctx.deadline, metadata := ctx.metadata ++ [(k, v)] }

/-- The values of every `authorization` metadata entry of a context, in
order. -/
def authorizationValues (ctx : Context) : List String :=
  ctx.metadata.filterMap (fun kv => if kv.1 = "authorization" then some kv.2 else none)

/-- An `oauth2.Token`; only its `AccessToken` field is read by this code. -/
structure Token where
  accessToken : String
  deriving DecidableEq, Repr

/-- An `oauth2.TokenSource`, modelled by the outcome of its `Token()` call:
either an error or a token.  A `nil` token source is `Option.none` at the
use site. -/
abbrev TokenSource := Except String Token

/-- Transient gRPC call errors, modelled by their message. -/
abbrev GrpcError := String

/-- The 15-second per-call deadline used by `CallGRPCEndpoint`, in seconds. -/
def fifteenSeconds : Nat := 15

/-- `CallGRPCEndpoint` (src/unnamed/part_001, lines 130-156), evaluated at
absolute time `now`.  It derives `localCTX` from `ctx` with a 15-second
timeout (`defer cancel()` only releases the timer and is outside the
embedding); if `tokenSource` is non-nil it calls `tokenSource.Token()`,
returning the error on failure, and otherwise appends a single
`authorization: Bearer <token>` entry to the outgoing metadata; finally it
invokes the callback on `localCTX` and passes its result or error through
unchanged. -/
def callGRPCEndpoint {In Out : Type} (now : Nat) (ctx : Context)
    (callback : Context → In → Except GrpcError Out) (input : In)
    (tokenSource : Option TokenSource) : Except GrpcError Out :=
  let localCTX := contextWithTimeout ctx now fifteenSeconds
  match tokenSource with
  | none =>
    match callback localCTX input with
    | .error err => .error err
    | .ok res => .ok res
  | some ts =>
    match ts with
    | .error err => .error err
    | .ok token =>
      let localCTX := appendToOutgoingContext localCTX
        "authorization" ("Bearer " ++ token.accessToken)
      match callback localCTX input with
      | .error err => .error err
      | .ok res => .ok res

/-- A bound TCP listener (`net.Listener`), carrying the address it was opened
on. -/
structure Listener where
  addr : String
  deriving DecidableEq, Repr

/-- A constructed gRPC server; this code only registers the health service on
it. -/
structure GRPCServer where
  healthRegistered : Bool
  deriving DecidableEq, Repr

/-- A fatal process exit (`log.Fatal` / `log.Fatalf`), carrying the
diagnostic message. -/
inductive Fatal where
  | fatal (msg : String)
  deriving DecidableEq, Repr

/-- `StartGRPCServer` (src/unnamed/part_001, lines 90-121).  A zero port is a
fatal configuration error, checked before anything else; only then is
`net.Listen("tcp", ":<port>")` attempted (modelled by the `listenTCP` oracle),
whose failure is also fatal.  On success a server with the health service
registered is returned together with the `healthUpdater` closure, which on
each run probes `depsCheck()` and pushes the per-service statuses
(`healthUpdaterStep`). -/
def startGRPCServer (listenTCP : String → Except String Listener)
    (port : Nat) (depsCheck : Unit → List (String × Bool)) :
    Except Fatal (Listener × GRPCServer × (Registry → Registry)) :=
  if port = 0 then .error (.fatal "port is required")
  else
    match listenTCP (":" ++ toString port) with
    | .error e => .error (.fatal ("failed to listen: " ++ e))
    | .ok listener =>
      .ok (listener, ⟨true⟩, fun registry => healthUpdaterStep (depsCheck ()) registry)

/-- The deployment modes (src/deploy/env.go): `dev`, `staging`, `prod`.  The
package's `init` aborts the process on any other value of `ENV`, so the
embedding only carries the three recognized modes. -/
inductive Env where
  | dev
  | staging
  | prod
  deriving DecidableEq, Repr

/-- `IsReleaseEnv` (src/deploy/env.go): `ENV == ProdENV || ENV == StagingEnv`. -/
def isReleaseEnv (env : Env) : Bool :=
  env == Env.prod || env == Env.staging

/-- Go's `strings.ToUpper`, character by character (service names are plain
ASCII identifiers, on which this agrees with Go's Unicode-aware version). -/
def strToUpper (s : String) : String := String.mk (s.data.map Char.toUpper)

/-- The distinct failures of credential loading (src/deploy/grpc.go,
`loadCertificates` and `loadCA`), one constructor per `fmt.Errorf` site, each
carrying the service name (and, for the key-pair parse failure, the wrapped
parse error). -/
inductive LoadError where
  | missingCert (svc : String)
  | missingKey (svc : String)
  | certParseFailure (svc : String) (wrapped : String)
  | missingCA (svc : String)
  | caParseFailure (svc : String)
  deriving DecidableEq, Repr

/-- The error message each `fmt.Errorf` call of src/deploy/grpc.go produces
(`%w` interpolates the wrapped error's message). -/
def LoadError.message : LoadError → String
  | .missingCert svc => "missing certificate for service: " ++ svc ++ "\n"
  | .missingKey svc => "missing key for service: " ++ svc ++ "\n"
  | .certParseFailure svc wrapped =>
      "failed to load certificate for service " ++ svc ++ ": " ++ wrapped
  | .missingCA svc => "missing CA for service: " ++ svc ++ "\n"
  | .caParseFailure svc => "failed to load CA for service " ++ svc ++ "\n"

/-- A parsed X.509 certificate/key pair (`tls.Certificate`), opaque to this
code. -/
structure TLSCertificate where
  data : String
  deriving DecidableEq, Repr

/-- An `x509.CertPool` built by `AppendCertsFromPEM` from one raw PEM bundle;
identified by that bundle. -/
structure CertPool where
  pem : String
  deriving DecidableEq, Repr

/-- The external crypto routines the loaders call, as oracles:
`tls.X509KeyPair` either fails with an error message or yields a certificate,
and `(*x509.CertPool).AppendCertsFromPEM` reports whether any certificate was
parsed from the bundle. -/
structure Crypto where
  x509KeyPair : String → String → Except String TLSCertificate
  appendCertsFromPEM : String → Bool

/-- `tls.ClientAuthType`; this code uses the zero value `NoClientCert` and
`RequireAndVerifyClientCert`. -/
inductive ClientAuthType where
  | noClientCert
  | requestClientCert
  | requireAnyClientCert
  | verifyClientCertIfGiven
  | requireAndVerifyClientCert
  deriving DecidableEq, Repr

/-- The fields of `tls.Config` this code sets. -/
structure TLSConfig where
  serverName : Option String
  certificates : List TLSCertificate
  rootCAs : Option CertPool
  clientCAs : Option CertPool
  clientAuth : ClientAuthType
  deriving DecidableEq, Repr

/-- A gRPC transport credential: either `insecure.NewCredentials()` (no
encryption, no authentication) or `credentials.NewTLS(cfg)` (TLS-encrypted
with the given configuration). -/
inductive TransportCredentials where
  | insecure
  | tls (cfg : TLSConfig)
  deriving DecidableEq, Repr

/-- Whether a transport credential encrypts the channel: TLS does, the
insecure credential does not. -/
def TransportCredentials.isEncrypted : TransportCredentials → Bool
  | .insecure => false
  | .tls _ => true

/-- `loadCertificates` (src/deploy/grpc.go, lines 16-36).  The environment is
`getenv` (Go's `os.Getenv`, which yields `""` for an unset variable).  Reads
`{PFX}_CERT` and `{PFX}_KEY` with the service name uppercased; an empty
certificate is the `missingCert` error, an empty key the `missingKey` error,
and a key-pair parse failure wraps the parse error in `certParseFailure`. -/
def loadCertificates (crypto : Crypto) (getenv : String → String) (pfx : String) :
    Except LoadError TLSCertificate :=
  let certEnv := strToUpper pfx ++ "_CERT"
  let keyEnv := strToUpper pfx ++ "_KEY"
  let rawCert := getenv certEnv
  let rawKey := getenv keyEnv
  if rawCert = "" then .error (.missingCert pfx)
  else if rawKey = "" then .error (.missingKey pfx)
  else
    match crypto.x509KeyPair rawCert rawKey with
    | .error e => .error (.certParseFailure pfx e)
    | .ok cert => .ok cert

/-- `loadCA` (src/deploy/grpc.go, lines 38-53).  Reads `{PFX}_CA`; an empty
value is the `missingCA` error, and a bundle from which
`AppendCertsFromPEM` parses nothing is the `caParseFailure` error; otherwise
the pool built from the bundle is returned. -/
def loadCA (crypto : Crypto) (getenv : String → String) (pfx : String) :
    Except LoadError CertPool :=
  let caEnv := strToUpper pfx ++ "_CA"
  let rawCA := getenv caEnv
  if rawCA = "" then .error (.missingCA pfx)
  else if crypto.appendCertsFromPEM rawCA then .ok ⟨rawCA⟩
  else .error (.caParseFailure pfx)

/-- `loadClientCredentials` (src/deploy/grpc.go, lines 55-77).  Outside
release environments it returns the insecure credential at once.  In a
release environment it loads the service's certificate and CA (each failure
is `log.Fatal`, modelled as the `Fatal` error) and builds a TLS client
credential with `ServerName = host`, the loaded certificate, and the CA pool
as `RootCAs`. -/
def loadClientCredentials (env : Env) (crypto : Crypto) (getenv : String → String)
    (host name : String) : Except Fatal TransportCredentials :=
  if !isReleaseEnv env then .ok .insecure
  else
    match loadCertificates crypto getenv name with
    | .error err =>
      .error (.fatal (err.message ++ "failed to load certificate for service " ++ name))
    | .ok cert =>
      match loadCA crypto getenv name with
      | .error err =>
        .error (.fatal (err.message ++ "failed to load CA for service " ++ name))
      | .ok ca =>
        .ok (.tls ⟨some host, [cert], some ca, none, .noClientCert⟩)

/-- `loadServerCredentials` (src/deploy/grpc.go, lines 79-101).  Outside
release environments it returns the insecure credential at once.  In a
release environment it loads the service's certificate and CA (each failure
fatal) and builds a TLS server credential holding the certificate, the CA
pool as `ClientCAs`, and `ClientAuth = RequireAndVerifyClientCert`. -/
def loadServerCredentials (env : Env) (crypto : Crypto) (getenv : String → String)
    (name : String) : Except Fatal TransportCredentials :=
  if !isReleaseEnv env then .ok .insecure
  else
    match loadCertificates crypto getenv name with
    | .error err =>
      .error (.fatal (err.message ++ "failed to load certificate for service " ++ name))
    | .ok cert =>
      match loadCA crypto getenv name with
      | .error err =>
        .error (.fatal (err.message ++ "failed to load CA for service " ++ name))
      | .ok ca =>
        .ok (.tls ⟨none, [cert], none, some ca, .requireAndVerifyClientCert⟩)

/-- Overwrite one environment variable in a store (used to state what happens
when a variable is removed, i.e. set to the empty string). -/
def setVar (getenv : String → String) (k v : String) : String → String :=
  fun k' => if k' = k then v else getenv k'

/-- Modelled from the spec: `DependencyStatus`, the probe result of one cycle
of the ServiceHealthMap-based Health Aggregator (spec §3, §4.5).  The source
tree only contains the earlier revision of `healthUpdater`
(src/unnamed/part_001, a flat `map[string]bool` probe with no
service→dependency map and no global status); the revision the spec
describes is not among the source files, so it is modelled from the spec's
words.  A probe result maps each probed dependency to an optional error
(`none` = healthy); a dependency absent from the map is treated as "no
failure". -/
abbrev DependencyStatus := List (String × Option String)

/-- Modelled from the spec: `ServiceHealthMap`, the static map from each
exposed logical service to the dependencies it relies on (spec §3). -/
abbrev ServiceHealthMap := List (String × List String)

/-- Modelled from the spec: whether dependency `dep` failed in this cycle's
probe result — it carries an error in the map; absence from the map is not a
failure (spec §4.5, edge case). -/
def dependencyFailed (status : DependencyStatus) (dep : String) : Bool :=
  match status.find? (fun kv => kv.1 == dep) with
  | some (_, some _) => true
  | _ => false

/-- Modelled from the spec: the global status of one cycle — `SERVING` only
if every dependency succeeded this cycle, `NOT_SERVING` as soon as any
dependency reports an error (spec §4.5, step 2). -/
def globalStatus (status : DependencyStatus) : ServingStatus :=
  if status.any (fun kv => kv.2.isSome) then .NOT_SERVING else .SERVING

/-- Modelled from the spec: a service's status for one cycle — `NOT_SERVING`
when any of its declared dependencies failed this cycle, else `SERVING`
(spec §4.5, step 3). -/
def serviceStatus (status : DependencyStatus) (deps : List String) : ServingStatus :=
  if deps.any (fun dep => dependencyFailed status dep) then .NOT_SERVING else .SERVING

/-- Modelled from the spec: one pass of the ServiceHealthMap-based
aggregation cycle (spec §4.5, steps 1-4).  Given this cycle's probe result,
it pushes the global status under the empty/root service name and, for every
declared service of the map, that service's status, overwriting prior
registry values per entry.  (Step 5, the 5-second sleep, does not touch the
registry.) -/
def aggregationCycle (shm : ServiceHealthMap) (status : DependencyStatus)
    (registry : Registry) : Registry :=
  let registry := registry.set "" (globalStatus status)
  shm.foldl (fun r sd => r.set sd.1 (serviceStatus status sd.2)) registry

/-- A concrete crypto oracle for evaluating the loaders on explicit inputs:
it accepts exactly the PEM blobs `"CERTPEM"`/`"KEYPEM"` as a key pair and
`"CAPEM"` as a CA bundle. -/
def cryptoW : Crypto :=
  ⟨fun c k => if (c == "CERTPEM") && (k == "KEYPEM") then .ok ⟨"parsed-cert"⟩
              else .error "x509 parse failure",
   fun s => s == "CAPEM"⟩

/-- A concrete environment for evaluating the loaders: the three credential
variables of service `orders` are set, everything else is unset. -/
def getenvW : String → String := fun k =>
  if k == "ORDERS_CERT" then "CERTPEM"
  else if k == "ORDERS_KEY" then "KEYPEM"
  else if k == "ORDERS_CA" then "CAPEM"
  else ""

theorem Registry.find_set_self (r : Registry) (k : String) (v : ServingStatus) :
    (r.set k v).find k = some v := by
  induction r with
  | nil => simp [Registry.set, Registry.find]
  | cons hd tl ih =>
    obtain ⟨k', v'⟩ := hd
    by_cases h : k' = k
    · simp [Registry.set, h, Registry.find]
    · simp [Registry.set, h, Registry.find, ih]

theorem Registry.find_set_ne (r : Registry) (k k' : String) (v : ServingStatus)
    (h : k ≠ k') : (r.set k v).find k' = r.find k' := by
  induction r with
  | nil => simp [Registry.set, Registry.find, h]
  | cons hd tl ih =>
    obtain ⟨k₀, v₀⟩ := hd
    by_cases h₀ : k₀ = k
    · subst h₀
      simp [Registry.set, Registry.find, h]
    · simp [Registry.set, h₀, Registry.find, ih]

theorem healthUpdaterStep_find_not_mem (status : List (String × Bool)) (r : Registry)
    (k : String) (h : k ∉ status.map Prod.fst) :
    (healthUpdaterStep status r).find k = r.find k := by
  induction status generalizing r with
  | nil => rfl
  | cons hd tl ih =>
    obtain ⟨s, ok⟩ := hd
    simp only [List.map_cons, List.mem_cons] at h
    push_neg at h
    rw [healthUpdaterStep, ih _ h.2, Registry.find_set_ne _ _ _ _ (fun he => h.1 he.symm)]

theorem healthUpdaterStep_find_congr (status : List (String × Bool)) (r₁ r₂ : Registry)
    (k : String) (h : k ∈ status.map Prod.fst) :
    (healthUpdaterStep status r₁).find k = (healthUpdaterStep status r₂).find k := by
  induction status generalizing r₁ r₂ with
  | nil => simp at h
  | cons hd tl ih =>
    obtain ⟨s, ok⟩ := hd
    by_cases hm : k ∈ tl.map Prod.fst
    · rw [healthUpdaterStep, healthUpdaterStep, ih _ _ hm]
    · simp only [List.map_cons, List.mem_cons] at h
      have hks : s = k := by
        rcases h with h | h
        · exact h.symm
        · exact absurd h hm
      subst hks
      rw [healthUpdaterStep, healthUpdaterStep,
        healthUpdaterStep_find_not_mem _ _ _ hm, healthUpdaterStep_find_not_mem _ _ _ hm,
        Registry.find_set_self, Registry.find_set_self]

/-- C1: with ServiceHealthMap `{svcA ↦ [db], svcB ↦ [cache]}` and probe
result `{db ↦ error, cache ↦ nil}`, one aggregation cycle — run from any
prior registry — sets svcA to NOT_SERVING, svcB to SERVING, and the global
(root, empty-named) status to NOT_SERVING. -/
theorem aggregationCycle_example (registry : Registry) :
    ((aggregationCycle [("svcA", ["db"]), ("svcB", ["cache"])]
        [("db", some "error"), ("cache", none)] registry).find "svcA"
      = some .NOT_SERVING)
    ∧ ((aggregationCycle [("svcA", ["db"]), ("svcB", ["cache"])]
        [("db", some "error"), ("cache", none)] registry).find "svcB"
      = some .SERVING)
    ∧ ((aggregationCycle [("svcA", ["db"]), ("svcB", ["cache"])]
        [("db", some "error"), ("cache", none)] registry).find ""
      = some .NOT_SERVING) := by
  have hcycle : aggregationCycle [("svcA", ["db"]), ("svcB", ["cache"])]
      [("db", some "error"), ("cache", none)] registry
      = ((registry.set "" .NOT_SERVING).set "svcA" .NOT_SERVING).set "svcB" .SERVING := rfl
  refine ⟨?_, ?_, ?_⟩
  · rw [hcycle, Registry.find_set_ne _ _ _ _ (by decide), Registry.find_set_self]
  · rw [hcycle, Registry.find_set_self]
  · rw [hcycle, Registry.find_set_ne _ _ _ _ (by decide),
      Registry.find_set_ne _ _ _ _ (by decide), Registry.find_set_self]

/-- C9: calling `StartGRPCServer` with port 0 fails fatally with
"port is required" for every listener oracle and every probe function — the
result does not depend on the listener at all, so no bind is ever attempted
and no default port is assumed. -/
theorem startGRPCServer_zero_port_fatal
    (listenTCP : String → Except String Listener)
    (depsCheck : Unit → List (String × Bool)) :
    startGRPCServer listenTCP 0 depsCheck = .error (.fatal "port is required") := rfl

/-- C10: for every request — empty, registered, or unknown service name —
`HealthHandler.Check` returns a non-nil response together with a nil error;
health failures are conveyed only through the status value. -/
theorem healthHandler_check_total (h : HealthHandler) (req : HealthCheckRequest) :
    (h.check req).1.isSome = true ∧ (h.check req).2 = none := by
  unfold HealthHandler.check
  by_cases hs : req.service = ""
  · simp [hs]
  · simp only [hs, ne_eq, not_false_eq_true, if_true]
    cases lookupService h.services req.service with
    | none => simp
    | some checkFn => cases checkFn <;> simp

/-- C2 counterexample: a completed cycle whose only dependency `db` failed
pushes nothing under the empty/root name (its registry entry stays absent),
and the handler's `Check` with an empty service name returns SERVING — not
the NOT_SERVING global aggregate the claim requires for a cycle with a
failed dependency. -/
theorem emptyName_global_counterexample :
    (healthUpdaterStep [("db", false)] []).find "" = none
    ∧ HealthHandler.check ⟨[("db", false)]⟩ ⟨""⟩ = (some ⟨.SERVING⟩, none) :=
  ⟨rfl, rfl⟩

/-- C2 amended: a health-check request with an empty/absent service name
returns SERVING unconditionally, and an aggregation cycle whose probe result
names no empty-named service leaves the empty/root registry entry exactly as
it was — no global aggregate is ever pushed under the root name. -/
theorem emptyName_check_serving :
    (∀ (h : HealthHandler) (req : HealthCheckRequest), req.service = "" →
      h.check req = (some ⟨.SERVING⟩, none))
    ∧ (∀ (status : List (String × Bool)) (r : Registry),
        (∀ kv ∈ status, kv.1 ≠ "") →
        (healthUpdaterStep status r).find "" = r.find "") := by
  constructor
  · intro h req hs
    unfold HealthHandler.check
    simp [hs]
  · intro status r hne
    apply healthUpdaterStep_find_not_mem
    intro hm
    simp only [List.mem_map] at hm
    obtain ⟨kv, hkv, hfst⟩ := hm
    exact hne kv hkv hfst

theorem emptyName_check_serving_witness :
    HealthHandler.check ⟨[("db", true)]⟩ ⟨""⟩ = (some ⟨.SERVING⟩, none)
    ∧ (healthUpdaterStep [("db", true)] [("", .NOT_SERVING)]).find ""
        = Registry.find [("", .NOT_SERVING)] "" := by
  constructor
  · exact emptyName_check_serving.1 ⟨[("db", true)]⟩ ⟨""⟩ rfl
  · exact emptyName_check_serving.2 [("db", true)] [("", .NOT_SERVING)] (by decide)

/-- C3 counterexample: two prior registry states — empty, and one holding a
`stale` entry from an earlier cycle — run through one cycle with the same
probe result `{a ↦ true}` end in different registry contents: the `stale`
entry is carried over, so the registry after a cycle is not a function of
that cycle's probe result alone. -/
theorem cycle_carryover_counterexample :
    (healthUpdaterStep [("a", true)] []).find "stale" = none
    ∧ (healthUpdaterStep [("a", true)] [("stale", .SERVING)]).find "stale"
        = some .SERVING :=
  ⟨rfl, rfl⟩

/-- C3 amended: after one cycle, the entry of every service named in the
probe result is a function of that probe result alone (identical for any two
prior registry states), while the entry of every service not named in the
probe result is carried over unchanged from the prior registry state. -/
theorem healthUpdaterStep_function_of_probe :
    (∀ (status : List (String × Bool)) (r₁ r₂ : Registry) (k : String),
        k ∈ status.map Prod.fst →
        (healthUpdaterStep status r₁).find k = (healthUpdaterStep status r₂).find k)
    ∧ (∀ (status : List (String × Bool)) (r : Registry) (k : String),
        k ∉ status.map Prod.fst →
        (healthUpdaterStep status r).find k = r.find k) :=
  ⟨healthUpdaterStep_find_congr, healthUpdaterStep_find_not_mem⟩

theorem healthUpdaterStep_function_of_probe_witness :
    (healthUpdaterStep [("a", true)] []).find "a"
        = (healthUpdaterStep [("a", true)] [("x", .UNKNOWN)]).find "a"
    ∧ (healthUpdaterStep [("a", true)] [("x", .UNKNOWN)]).find "x"
        = Registry.find [("x", .UNKNOWN)] "x" := by
  constructor
  · exact healthUpdaterStep_function_of_probe.1 [("a", true)] [] [("x", .UNKNOWN)] "a"
      (by decide)
  · exact healthUpdaterStep_function_of_probe.2 [("a", true)] [("x", .UNKNOWN)] "x"
      (by decide)

theorem loadClientCredentials_dev (crypto : Crypto) (getenv : String → String)
    (host name : String) :
    loadClientCredentials .dev crypto getenv host name = .ok .insecure := rfl

theorem loadServerCredentials_dev (crypto : Crypto) (getenv : String → String)
    (name : String) :
    loadServerCredentials .dev crypto getenv name = .ok .insecure := rfl

theorem loadClientCredentials_ok_encrypted (env : Env) (crypto : Crypto)
    (getenv : String → String) (host name : String) (c : TransportCredentials)
    (henv : isReleaseEnv env = true)
    (hc : loadClientCredentials env crypto getenv host name = .ok c) :
    c.isEncrypted = true := by
  unfold loadClientCredentials at hc
  rw [henv] at hc
  simp only [Bool.not_true, Bool.false_eq_true, if_false] at hc
  cases hcert : loadCertificates crypto getenv name with
  | error err => rw [hcert] at hc; simp at hc
  | ok cert =>
    rw [hcert] at hc
    cases hca : loadCA crypto getenv name with
    | error err => rw [hca] at hc; simp at hc
    | ok ca =>
      rw [hca] at hc
      simp only [Except.ok.injEq] at hc
      rw [← hc]
      rfl

theorem loadServerCredentials_ok_encrypted (env : Env) (crypto : Crypto)
    (getenv : String → String) (name : String) (c : TransportCredentials)
    (henv : isReleaseEnv env = true)
    (hc : loadServerCredentials env crypto getenv name = .ok c) :
    c.isEncrypted = true := by
  unfold loadServerCredentials at hc
  rw [henv] at hc
  simp only [Bool.not_true, Bool.false_eq_true, if_false] at hc
  cases hcert : loadCertificates crypto getenv name with
  | error err => rw [hcert] at hc; simp at hc
  | ok cert =>
    rw [hcert] at hc
    cases hca : loadCA crypto getenv name with
    | error err => rw [hca] at hc; simp at hc
    | ok ca =>
      rw [hca] at hc
      simp only [Except.ok.injEq] at hc
      rw [← hc]
      rfl

/-- C4: in development mode both credential constructors return the
unauthenticated/insecure credential, and whenever either constructor returns
a credential, that credential is TLS-encrypted exactly when the mode is
staging or production — no mode yields the other kind. -/
theorem credentials_encrypted_iff_release (env : Env) (crypto : Crypto)
    (getenv : String → String) (host name : String) :
    (env = .dev →
      loadClientCredentials env crypto getenv host name = .ok .insecure
      ∧ loadServerCredentials env crypto getenv name = .ok .insecure)
    ∧ (∀ c, loadClientCredentials env crypto getenv host name = .ok c →
        (c.isEncrypted = true ↔ (env = .staging ∨ env = .prod)))
    ∧ (∀ c, loadServerCredentials env crypto getenv name = .ok c →
        (c.isEncrypted = true ↔ (env = .staging ∨ env = .prod))) := by
  refine ⟨?_, ?_, ?_⟩
  · rintro rfl
    exact ⟨loadClientCredentials_dev crypto getenv host name,
      loadServerCredentials_dev crypto getenv name⟩
  · intro c hc
    cases env with
    | dev =>
      rw [loadClientCredentials_dev] at hc
      simp only [Except.ok.injEq] at hc
      rw [← hc]
      simp [TransportCredentials.isEncrypted]
    | staging =>
      rw [loadClientCredentials_ok_encrypted .staging crypto getenv host name c rfl hc]
      simp
    | prod =>
      rw [loadClientCredentials_ok_encrypted .prod crypto getenv host name c rfl hc]
      simp
  · intro c hc
    cases env with
    | dev =>
      rw [loadServerCredentials_dev] at hc
      simp only [Except.ok.injEq] at hc
      rw [← hc]
      simp [TransportCredentials.isEncrypted]
    | staging =>
      rw [loadServerCredentials_ok_encrypted .staging crypto getenv name c rfl hc]
      simp
    | prod =>
      rw [loadServerCredentials_ok_encrypted .prod crypto getenv name c rfl hc]
      simp

theorem credentials_encrypted_iff_release_witness :
    (loadClientCredentials Env.dev cryptoW getenvW "host" "orders" = .ok .insecure
      ∧ loadServerCredentials Env.dev cryptoW getenvW "orders" = .ok .insecure)
    ∧ ((TransportCredentials.tls
          ⟨some "host", [⟨"parsed-cert"⟩], some ⟨"CAPEM"⟩, none,
            .noClientCert⟩).isEncrypted = true
        ↔ (Env.prod = Env.staging ∨ Env.prod = Env.prod)) := by
  constructor
  · exact (credentials_encrypted_iff_release Env.dev cryptoW getenvW "host" "orders").1 rfl
  · exact (credentials_encrypted_iff_release Env.prod cryptoW getenvW "host" "orders").2.1
      (.tls ⟨some "host", [⟨"parsed-cert"⟩], some ⟨"CAPEM"⟩, none, .noClientCert⟩)
      (by rfl)

/-- C5: in production mode with the three variables of the service present
and parseable, `loadServerCredentials` succeeds with a TLS credential whose
`ClientAuth` is `RequireAndVerifyClientCert` and whose `ClientCAs` is the
pool built from that service's own CA bundle; in development mode with the
same environment it returns the unauthenticated credential. -/
theorem serverCredentials_scenario (crypto : Crypto) (getenv : String → String)
    (name : String) (cert : TLSCertificate)
    (hcert : getenv (strToUpper name ++ "_CERT") ≠ "")
    (hkey : getenv (strToUpper name ++ "_KEY") ≠ "")
    (hpair : crypto.x509KeyPair (getenv (strToUpper name ++ "_CERT"))
        (getenv (strToUpper name ++ "_KEY")) = .ok cert)
    (hca : getenv (strToUpper name ++ "_CA") ≠ "")
    (hpem : crypto.appendCertsFromPEM (getenv (strToUpper name ++ "_CA")) = true) :
    loadServerCredentials .prod crypto getenv name
      = .ok (.tls ⟨none, [cert], none, some ⟨getenv (strToUpper name ++ "_CA")⟩,
          .requireAndVerifyClientCert⟩)
    ∧ loadServerCredentials .dev crypto getenv name = .ok .insecure := by
  have h1 : loadCertificates crypto getenv name = .ok cert := by
    unfold loadCertificates
    rw [if_neg hcert, if_neg hkey, hpair]
  have h2 : loadCA crypto getenv name = .ok ⟨getenv (strToUpper name ++ "_CA")⟩ := by
    unfold loadCA
    rw [if_neg hca, if_pos hpem]
  constructor
  · unfold loadServerCredentials
    rw [show isReleaseEnv Env.prod = true from rfl]
    simp only [Bool.not_true, Bool.false_eq_true, if_false, h1, h2]
  · exact loadServerCredentials_dev crypto getenv name

theorem serverCredentials_scenario_witness :
    loadServerCredentials .prod cryptoW getenvW "orders"
      = .ok (.tls ⟨none, [⟨"parsed-cert"⟩], none,
          some ⟨getenvW (strToUpper "orders" ++ "_CA")⟩, .requireAndVerifyClientCert⟩)
    ∧ loadServerCredentials .dev cryptoW getenvW "orders" = .ok .insecure :=
  serverCredentials_scenario cryptoW getenvW "orders" ⟨"parsed-cert"⟩
    (by decide) (by decide) (by rfl) (by decide) (by decide)

theorem stringLengthAppend (a b : String) : (a ++ b).length = a.length + b.length := by
  rw [String.congr_append, String.length_eq_list_length, List.length_append]
  rfl

theorem message_ne_of_length_ne (e₁ e₂ : LoadError)
    (h : e₁.message.length ≠ e₂.message.length) : e₁.message ≠ e₂.message :=
  fun he => h (he ▸ rfl)

theorem length_message_missingCert (svc : String) :
    (LoadError.message (.missingCert svc)).length = svc.length + 34 := by
  simp only [LoadError.message]
  rw [stringLengthAppend, stringLengthAppend,
    show ("missing certificate for service: " : String).length = 33 from rfl,
    show ("\n" : String).length = 1 from rfl]
  omega

theorem length_message_missingKey (svc : String) :
    (LoadError.message (.missingKey svc)).length = svc.length + 26 := by
  simp only [LoadError.message]
  rw [stringLengthAppend, stringLengthAppend,
    show ("missing key for service: " : String).length = 25 from rfl,
    show ("\n" : String).length = 1 from rfl]
  omega

theorem length_message_missingCA (svc : String) :
    (LoadError.message (.missingCA svc)).length = svc.length + 25 := by
  simp only [LoadError.message]
  rw [stringLengthAppend, stringLengthAppend,
    show ("missing CA for service: " : String).length = 24 from rfl,
    show ("\n" : String).length = 1 from rfl]
  omega

theorem length_message_certParseFailure (svc w : String) :
    (LoadError.message (.certParseFailure svc w)).length = svc.length + w.length + 41 := by
  simp only [LoadError.message]
  rw [stringLengthAppend, stringLengthAppend, stringLengthAppend,
    show ("failed to load certificate for service " : String).length = 39 from rfl,
    show (": " : String).length = 2 from rfl]
  omega

theorem length_message_caParseFailure (svc : String) :
    (LoadError.message (.caParseFailure svc)).length = svc.length + 31 := by
  simp only [LoadError.message]
  rw [stringLengthAppend, stringLengthAppend,
    show ("failed to load CA for service " : String).length = 30 from rfl,
    show ("\n" : String).length = 1 from rfl]
  omega

theorem certEnvName_ne_keyEnvName (u : String) : u ++ "_CERT" ≠ u ++ "_KEY" := by
  intro h
  have h' := congrArg String.length h
  rw [stringLengthAppend, stringLengthAppend,
    show ("_CERT" : String).length = 5 from rfl,
    show ("_KEY" : String).length = 4 from rfl] at h'
  omega

/-- C6: removing any one of the service's three variables makes credential
loading fail with its own error kind (`missingCert` / `missingKey` /
`missingCA`); values that are present but malformed fail with their own
parse-failure kinds; and the five kinds produce pairwise distinct error
messages, so every failure is identifiable — nothing is silently
defaulted. -/
theorem credential_load_errors_distinct (crypto : Crypto) (getenv : String → String)
    (name : String) :
    (loadCertificates crypto (setVar getenv (strToUpper name ++ "_CERT") "") name
        = .error (.missingCert name))
    ∧ (getenv (strToUpper name ++ "_CERT") ≠ "" →
        loadCertificates crypto (setVar getenv (strToUpper name ++ "_KEY") "") name
          = .error (.missingKey name))
    ∧ (loadCA crypto (setVar getenv (strToUpper name ++ "_CA") "") name
        = .error (.missingCA name))
    ∧ (∀ w, getenv (strToUpper name ++ "_CERT") ≠ "" →
        getenv (strToUpper name ++ "_KEY") ≠ "" →
        crypto.x509KeyPair (getenv (strToUpper name ++ "_CERT"))
            (getenv (strToUpper name ++ "_KEY")) = .error w →
        loadCertificates crypto getenv name = .error (.certParseFailure name w))
    ∧ (getenv (strToUpper name ++ "_CA") ≠ "" →
        crypto.appendCertsFromPEM (getenv (strToUpper name ++ "_CA")) = false →
        loadCA crypto getenv name = .error (.caParseFailure name))
    ∧ (∀ w, List.Pairwise (fun e₁ e₂ => LoadError.message e₁ ≠ LoadError.message e₂)
        [.missingCert name, .missingKey name, .missingCA name,
         .certParseFailure name w, .caParseFailure name]) := by
  refine ⟨?_, ?_, ?_, ?_, ?_, ?_⟩
  · unfold loadCertificates setVar
    simp
  · intro hcert
    unfold loadCertificates setVar
    simp [certEnvName_ne_keyEnvName (strToUpper name), hcert]
  · unfold loadCA setVar
    simp
  · intro w hcert hkey hpair
    unfold loadCertificates
    rw [if_neg hcert, if_neg hkey, hpair]
  · intro hca hpem
    unfold loadCA
    rw [if_neg hca, hpem]
    simp
  · intro w
    refine .cons ?_ (.cons ?_ (.cons ?_ (.cons ?_ (.cons (fun e he => by simp at he) .nil))))
    · intro e he
      simp only [List.mem_cons, List.not_mem_nil, or_false] at he
      apply message_ne_of_length_ne
      rcases he with rfl | rfl | rfl | rfl
      · rw [length_message_missingCert, length_message_missingKey]; omega
      · rw [length_message_missingCert, length_message_missingCA]; omega
      · rw [length_message_missingCert, length_message_certParseFailure]; omega
      · rw [length_message_missingCert, length_message_caParseFailure]; omega
    · intro e he
      simp only [List.mem_cons, List.not_mem_nil, or_false] at he
      apply message_ne_of_length_ne
      rcases he with rfl | rfl | rfl
      · rw [length_message_missingKey, length_message_missingCA]; omega
      · rw [length_message_missingKey, length_message_certParseFailure]; omega
      · rw [length_message_missingKey, length_message_caParseFailure]; omega
    · intro e he
      simp only [List.mem_cons, List.not_mem_nil, or_false] at he
      apply message_ne_of_length_ne
      rcases he with rfl | rfl
      · rw [length_message_missingCA, length_message_certParseFailure]; omega
      · rw [length_message_missingCA, length_message_caParseFailure]; omega
    · intro e he
      simp only [List.mem_cons, List.not_mem_nil, or_false] at he
      rcases he with rfl
      apply message_ne_of_length_ne
      rw [length_message_certParseFailure, length_message_caParseFailure]; omega

theorem credential_load_errors_distinct_witness :
    loadCertificates cryptoW (setVar getenvW (strToUpper "orders" ++ "_CERT") "") "orders"
        = .error (.missingCert "orders")
    ∧ loadCertificates cryptoW (setVar getenvW (strToUpper "orders" ++ "_KEY") "") "orders"
        = .error (.missingKey "orders")
    ∧ loadCA cryptoW (setVar getenvW (strToUpper "orders" ++ "_CA") "") "orders"
        = .error (.missingCA "orders")
    ∧ loadCertificates cryptoW (fun _ => "GARBAGE") "orders"
        = .error (.certParseFailure "orders" "x509 parse failure")
    ∧ loadCA cryptoW (fun _ => "GARBAGE") "orders" = .error (.caParseFailure "orders")
    ∧ List.Pairwise (fun e₁ e₂ => LoadError.message e₁ ≠ LoadError.message e₂)
        [.missingCert "orders", .missingKey "orders", .missingCA "orders",
         .certParseFailure "orders" "x509 parse failure", .caParseFailure "orders"] :=
  ⟨(credential_load_errors_distinct cryptoW getenvW "orders").1,
    (credential_load_errors_distinct cryptoW getenvW "orders").2.1 (by decide),
    (credential_load_errors_distinct cryptoW getenvW "orders").2.2.1,
    (credential_load_errors_distinct cryptoW (fun _ => "GARBAGE") "orders").2.2.2.1
      "x509 parse failure" (by decide) (by decide) (by rfl),
    (credential_load_errors_distinct cryptoW (fun _ => "GARBAGE") "orders").2.2.2.2.1
      (by decide) (by decide),
    (credential_load_errors_distinct cryptoW getenvW "orders").2.2.2.2.2
      "x509 parse failure"⟩

/-- C7: with a nil token source `CallGRPCEndpoint` invokes the callback on a
context carrying exactly the caller's authorization entries (none is added);
with a token source whose fetch succeeds it invokes the callback on a context
carrying the caller's entries plus exactly one new `Bearer <token>` entry;
and when the token fetch fails the fetch error is returned without the
callback ever being invoked (the result is the same for every callback). -/
theorem callGRPCEndpoint_bearer {In Out : Type} (now : Nat) (ctx : Context)
    (callback : Context → In → Except GrpcError Out) (input : In) :
    (callGRPCEndpoint now ctx callback input none
        = callback (contextWithTimeout ctx now fifteenSeconds) input
      ∧ authorizationValues (contextWithTimeout ctx now fifteenSeconds)
          = authorizationValues ctx)
    ∧ (∀ token : Token, ∃ localCTX,
        callGRPCEndpoint now ctx callback input (some (.ok token))
            = callback localCTX input
        ∧ authorizationValues localCTX
            = authorizationValues ctx ++ ["Bearer " ++ token.accessToken])
    ∧ (∀ err : GrpcError,
        callGRPCEndpoint now ctx callback input (some (.error err)) = .error err) := by
  refine ⟨⟨?_, ?_⟩, ?_, ?_⟩
  · unfold callGRPCEndpoint
    cases h : callback (contextWithTimeout ctx now fifteenSeconds) input with
    | error e => simp [h]
    | ok r => simp [h]
  · simp [contextWithTimeout, authorizationValues]
  · intro token
    refine ⟨appendToOutgoingContext (contextWithTimeout ctx now fifteenSeconds)
      "authorization" ("Bearer " ++ token.accessToken), ?_, ?_⟩
    · unfold callGRPCEndpoint
      cases h : callback (appendToOutgoingContext (contextWithTimeout ctx now fifteenSeconds)
          "authorization" ("Bearer " ++ token.accessToken)) input with
      | error e => simp [h]
      | ok r => simp [h]
    · simp [appendToOutgoingContext, authorizationValues, contextWithTimeout,
        List.filterMap_append]
  · intro err
    rfl

end LibGo
